import Mathlib

/-!
Verification development for the compound-memory toolkit
(`src/config/hooks/_scoring.py`, `_common.py`, `_session.py`, `_memory.py`,
`compound-context-loader.py`, `src/config/scripts/consolidate-memory.py`).

Modelling conventions, applied throughout:
* Python floats are modelled exactly: scores, ages and timestamps are `ℚ`
  wherever the source only adds, divides and compares rationals, and `ℝ`
  where the source takes a real exponential (`recency_score`).
* Timestamps are parsed epoch seconds. A field that is an ISO string in the
  source becomes `Option ℚ` (`none` = absent or unparsable); where the source
  distinguishes "absent/empty" from "present but unparsable"
  (`is_state_expired`) the model uses `Option (Option ℚ)`.
* Paths compared with `Path.resolve` / `.parents` become lists of path
  components; filesystem contents become explicit association structures.
* The MD5 dedup fingerprint of a content prefix is modelled by the prefix
  itself (hash collisions abstracted away).
-/

namespace Toolkit

/-- Last `/`-separated component of a string: Python `s.split("/")[-1]`. -/
def lastComp (s : String) : String :=
  (s.splitOn "/").getLastD s

/-- Python `s.rsplit(".", 1)[0] if "." in s else s`: drop the last
dot-extension. -/
def rsplitStem (s : String) : String :=
  if s.contains '.' then String.intercalate "." ((s.splitOn ".").dropLast) else s

/-- `needle` occurs in `hay` as a contiguous character run: Python
`needle in hay`. -/
def strContains (hay needle : String) : Bool :=
  (List.range (hay.length + 1)).any
    (fun i => ((hay.data.drop i).take needle.length) = needle.data)

/-- Keep the first occurrence of each element: Python
`list(dict.fromkeys(xs))`. -/
def dedupKeepFirstAux : List String → List String → List String
  | [], _ => []
  | x :: xs, seen =>
      if x ∈ seen then dedupKeepFirstAux xs seen
      else x :: dedupKeepFirstAux xs (x :: seen)

def dedupKeepFirst (l : List String) : List String :=
  dedupKeepFirstAux l []

/-- A memory event (`_memory.py` event dict). `meta.archived_by` and
`meta.source_ids` are the two meta entries the verified code reads. -/
structure Event where
  id : String := ""
  ts : Option ℚ := none
  type : String := ""
  content : String := ""
  entities : List String := []
  source : String := ""
  category : String := ""
  problemType : String := ""
  archivedBy : Option String := none
  sourceIds : List String := []
deriving DecidableEq

instance : Inhabited Event := ⟨{}⟩

/-! ## `_scoring.py` -/

def MIN_SCORE_SESSION_START : ℝ := 0.12

def ENTITY_GATE_BYPASS_HOURS : ℚ := 4

/-- `_SYNONYM_GROUPS` of `_scoring.py`, in source order. -/
def _SYNONYM_GROUPS : List (List String) := [
  ["race-condition", "concurrency", "mutex", "deadlock", "lock", "thread-safety", "atomic"],
  ["state-management", "redux", "zustand", "context", "store", "state"],
  ["auth", "authentication", "login", "session", "jwt", "oauth", "sso"],
  ["api", "endpoint", "route", "handler", "controller", "rest", "graphql"],
  ["database", "db", "sql", "query", "migration", "schema", "orm", "sqlite", "postgres"],
  ["test", "testing", "spec", "jest", "pytest", "vitest", "e2e", "unit-test"],
  ["error", "exception", "crash", "failure", "retry", "fallback", "error-handling"],
  ["config", "configuration", "env", "environment", "settings", "dotenv"],
  ["cache", "caching", "memoize", "memoization", "redis", "invalidation"],
  ["deploy", "deployment", "ci-cd", "pipeline", "staging", "production", "release"],
  ["performance", "optimization", "perf", "latency", "throughput", "profiling", "benchmark"],
  ["component", "react", "nextjs", "ui", "frontend", "render", "jsx", "tsx"],
  ["css", "tailwind", "style", "styling", "theme", "design-system"],
  ["build", "webpack", "vite", "bundler", "compile", "transpile", "esbuild"],
  ["dependency", "package", "npm", "pip", "yarn", "pnpm", "version"],
  ["type", "typing", "typecheck", "typescript", "mypy", "pydantic", "zod", "schema"],
  ["async", "await", "promise", "asyncio", "concurrent", "parallel", "non-blocking"],
  ["file", "filesystem", "path", "directory", "io", "read", "write", "stream"],
  ["git", "commit", "branch", "merge", "rebase", "diff", "vcs"],
  ["hook", "hooks", "middleware", "interceptor", "plugin", "extension"],
  ["memory", "context", "injection", "recall", "retrieval", "scoring", "entity"],
  ["validation", "validator", "sanitize", "parse", "schema", "constraint"],
  ["logging", "log", "monitor", "telemetry", "metrics", "observability", "debug"],
  ["security", "xss", "csrf", "injection", "sanitize", "escape", "vulnerability"],
  ["mobile", "ios", "android", "react-native", "expo", "app", "native"]]

/-- `get_synonyms`: the `_SYNONYM_LOOKUP` dict is built by iterating the
groups in order, so for a term in several groups the LAST group wins; the
term itself is excluded. Unknown terms give `[]`. -/
def get_synonyms (term : String) : List String :=
  match (_SYNONYM_GROUPS.reverse).find? (fun g => g.contains term.toLower) with
  | none => []
  | some g => g.filter (fun t => t ≠ term.toLower)

/-- `event_age_hours`: hours since the event's timestamp, clamped at 0;
events with an unparsable timestamp get 999.0. `now` is the wall clock in
epoch seconds. -/
def event_age_hours (now : ℚ) (ev : Event) : ℚ :=
  match ev.ts with
  | some t => max 0 ((now - t) / 3600)
  | none => 999

/-- The tier `entity_overlap_score` assigns to one entity string against the
query components (basenames, stems, dirs). Values as in the source:
1.0, 0.6, 0.3 for file entities; 0.5, 0.35, 0.45 for concept entities. -/
def entityTier (basenames stems dirs : List String) (e : String) : ℚ :=
  if e.contains '/' || e.contains '.' then
    let eBase := lastComp e
    if basenames.contains eBase then 1
    else if stems.contains (if eBase.contains '.' then rsplitStem eBase else eBase) then 3/5
    else if dirs.contains e || dirs.contains eBase then 3/10
    else 0
  else
    let eLower := e.toLower
    if stems.contains eLower || dirs.contains eLower then 1/2
    else if stems.any (fun s => strContains s.toLower eLower)
        || dirs.any (fun d => strContains d.toLower eLower) then 7/20
    else
      let syns := get_synonyms eLower
      if !syns.isEmpty && (syns.any stems.contains || syns.any dirs.contains) then 9/20
      else 0

/-- `entity_overlap_score`: maximum tier over the event's entities (the
source's early `break` at 1.0 does not change the maximum). -/
def entity_overlap_score (ev : Event) (basenames stems dirs : List String) : ℚ :=
  if ev.entities.isEmpty || (basenames.isEmpty && stems.isEmpty && dirs.isEmpty) then 0
  else ev.entities.foldl (fun best e => max best (entityTier basenames stems dirs e)) 0

/-- The freshness curve of `recency_score` as a function of the age in
hours: linear from 1.0 down to 0.5 over the first 48 hours, then
`0.5 * 0.5 ** (days_past_48h / 7)`. -/
noncomputable def recencyOfAge (age : ℝ) : ℝ :=
  if age < 48 then 1 - age / 96
  else 0.5 * (0.5 : ℝ) ^ (((age - 48) / 24) / 7)

/-- `recency_score` of an event: the curve applied to `event_age_hours`. -/
noncomputable def recency_score (now : ℚ) (ev : Event) : ℝ :=
  recencyOfAge (event_age_hours now ev : ℚ)

/-- `utility_bonus`: +0.05 for an event injected at least 3 times with a
cited/injected ratio of at least 0.30. `util` is the manifest's utility
table, `(injected, cited)` per event id; a missing table is the constantly
`none` function. -/
def utility_bonus (ev : Event) (util : String → Option (ℕ × ℕ)) : ℚ :=
  if ev.id = "" then 0
  else
    match util ev.id with
    | none => 0
    | some (injected, cited) =>
        if 3 ≤ injected ∧ (3 : ℚ)/10 ≤ (cited : ℚ) / (injected : ℚ) then 1/20 else 0

/-- `score_event`: `0.60 * entity + 0.40 * recency + bonus` — note the source
applies no clamp. -/
noncomputable def score_event (now : ℚ) (basenames stems dirs : List String)
    (util : String → Option (ℕ × ℕ)) (ev : Event) : ℝ :=
  0.60 * (entity_overlap_score ev basenames stems dirs : ℝ)
    + 0.40 * recency_score now ev
    + (utility_bonus ev util : ℝ)

/-! ## `_common.py`: TTL expiry, PID liveness, cross-directory trust -/

def SESSION_TTL_HOURS : ℚ := 8

/-- The two timestamp fields `is_state_expired` reads. Outer `none` models a
missing field or an empty string (falsy in Python); `some none` models a
present but unparsable timestamp; `some (some t)` a parsed epoch time. -/
structure TimeState where
  lastActivityAt : Option (Option ℚ) := none
  startedAt : Option (Option ℚ) := none
deriving DecidableEq

/-- Python `state.get("last_activity_at") or state.get("started_at")`. -/
def stateTimestamp (st : TimeState) : Option (Option ℚ) :=
  match st.lastActivityAt with
  | some v => some v
  | none => st.startedAt

/-- `is_state_expired`: strictly older than the TTL (default 8 hours) counts
as expired; a missing or malformed timestamp counts as expired. -/
def is_state_expired (now : ℚ) (st : TimeState) (ttlHours : ℚ := SESSION_TTL_HOURS) : Bool :=
  match stateTimestamp st with
  | none => true
  | some none => true
  | some (some ts) => decide (now - ts > ttlHours * 3600)

/-- Outcome of the `os.kill(pid, 0)` probe in `is_pid_alive`. -/
inductive KillOutcome where
  | ok
  | processLookupError
  | permissionError
  | otherOSError
deriving DecidableEq

/-- `is_pid_alive`: non-positive pids are rejected before any OS probe;
otherwise success and `PermissionError` mean alive, `ProcessLookupError`
and other `OSError`s mean dead. The OS is the `probe` oracle. -/
def is_pid_alive (probe : ℤ → KillOutcome) (pid : ℤ) : Bool :=
  if pid ≤ 0 then false
  else
    match probe pid with
    | .ok => true
    | .processLookupError => false
    | .permissionError => true
    | .otherOSError => false

/-- A user-level state record as `_is_cwd_under_origin` and the two
`get_autonomous_state` variants read it. `originProject none` models a
missing or empty `origin_project`; paths are component lists. -/
structure UserState where
  time : TimeState := {}
  sessionId : String := ""
  originProject : Option (List String) := none
  sessions : List (String × TimeState) := []
deriving DecidableEq

def lookupSession (ss : List (String × TimeState)) (sid : String) : Option TimeState :=
  (ss.find? (fun p => p.1 = sid)).map (·.2)

/-- `origin` is `cwd` itself or an ancestor of it: Python
`cwd_resolved == origin_resolved or origin_resolved in cwd_resolved.parents`,
on resolved component lists. -/
def leadsTo : List String → List String → Bool
  | [], _ => true
  | _ :: _, [] => false
  | a :: as, b :: bs => a = b && leadsTo as bs

/-- `_is_cwd_under_origin` (`_common.py`): a session id found in the
multi-session map decides by that entry's own TTL alone; otherwise a
matching record session id is trusted regardless of directory; otherwise
the record must have no origin or an origin that is `cwd` or an ancestor. -/
def _is_cwd_under_origin (now : ℚ) (cwd : List String) (st : UserState)
    (sessionId : String) : Bool :=
  match (if sessionId ≠ "" then lookupSession st.sessions sessionId else none) with
  | some info => ! is_state_expired now info
  | none =>
      if sessionId ≠ "" && st.sessionId = sessionId then true
      else
        match st.originProject with
        | none => true
        | some origin => leadsTo origin cwd

/-- The user-level honoring test of `_common.py`'s `get_autonomous_state`:
`not is_state_expired(user_state) and _is_cwd_under_origin(cwd, user_state,
session_id)`. -/
def commonUserStateHonored (now : ℚ) (cwd : List String) (st : UserState)
    (sessionId : String) : Bool :=
  !is_state_expired now st.time && _is_cwd_under_origin now cwd st sessionId

/-- The user-level honoring test of `_session.py`'s `get_autonomous_state`
(lines 122-144): expiry, then session-ownership (a nonempty, different
record session id rejects), then — unconditionally — the origin check
(skipped only when `origin_project` or `cwd` is empty). There is no
multi-session map in this variant, and a session match does not bypass the
origin check. -/
def sessionUserStateHonored (now : ℚ) (cwd : List String) (st : UserState)
    (sessionId : String) : Bool :=
  if is_state_expired now st.time then false
  else if sessionId ≠ "" && st.sessionId ≠ "" && st.sessionId ≠ sessionId then false
  else
    match st.originProject with
    | none => true
    | some origin => if cwd.isEmpty then true else leadsTo origin cwd

/-! ## `_memory.py`: event store, manifest, dedup guard -/

/-- One event file on disk: its id (filename stem), parsed contents and
modification time. -/
structure StoredFile where
  eid : String
  event : Event
  mtime : ℚ
deriving DecidableEq

/-- The manifest of `_memory.py`: recent-id ring buffer (cap 50) and the
inverted entity index (cap 30 ids per key). The index is a total function;
keys never touched map to `[]`, as `entity_index.get(key, [])` reads them. -/
structure Manifest where
  recent : List String := []
  entityIndex : String → List String := fun _ => []
  totalCount : ℕ := 0

/-- A project's event directory plus its manifest, the state every
`_memory.py` operation reads and writes. Directory iteration order is
modelled by the list order of `files`. -/
structure MemStore where
  files : List StoredFile := []
  manifest : Manifest := {}

/-- `safe_read_event` of an id: the first stored file with that name. -/
def lookupFile (s : MemStore) (eid : String) : Option StoredFile :=
  s.files.find? (fun f => f.eid = eid)

/-- `_normalize_entity_key`: basename lowercased for path-like entities,
lowercased and stripped for concept entities. -/
def _normalize_entity_key (entity : String) : String :=
  if entity.contains '/' || (lastComp entity).contains '.' then (lastComp entity).toLower
  else entity.toLower.trim

/-- One conditional insert of `_update_manifest`: prepend the id to the
key's list unless already present, then cap the list at 30. -/
def insertIdAt (idx : String → List String) (key eid : String) : String → List String :=
  let ids := idx key
  let ids' := if eid ∈ ids then ids else (eid :: ids).take 30
  fun k => if k = key then ids' else idx k

/-- `_update_manifest`'s per-entity step: index under the normalized key and,
for keys with an extension, also under the extension-stripped stem. Empty
keys are skipped. -/
def updateIndexEntity (idx : String → List String) (eid entity : String) :
    String → List String :=
  let key := _normalize_entity_key entity
  if key = "" then idx
  else
    let idx1 := insertIdAt idx key eid
    if key.contains '.' then insertIdAt idx1 (rsplitStem key) eid else idx1

/-- `_update_manifest` under an uncontended lock: push the id onto `recent`
(cap 50), bump `total_count`, fold the entity index update. The lock-skip
branch (silently keeping the manifest unchanged) is not taken in the
single-writer runs the claims describe. -/
def _update_manifest (m : Manifest) (eid : String) (entities : List String) : Manifest :=
  { recent := (eid :: m.recent).take 50
    totalCount := m.totalCount + 1
    entityIndex := entities.foldl (fun idx ent => updateIndexEntity idx eid ent) m.entityIndex }

/-- `_is_duplicate`: the content's first 200 characters match one of the 8
most recent manifest entries whose file was written less than 60 minutes
ago. The MD5 prefix hash is modelled by the prefix itself. -/
def _is_duplicate (s : MemStore) (now : ℚ) (content : String) : Bool :=
  (s.manifest.recent.take 8).any (fun eid =>
    match lookupFile s eid with
    | none => false
    | some f =>
        f.event.content.take 200 = content.take 200 && decide (now - f.mtime < 3600))

/-- `append_event`: dedup guard, then write the event file (mtime = now) and
update the manifest. `newId` stands for the generated
`evt_<ts>-<pid>-<rand>` name. Returns the stored id, or `none` when the
content is a recent duplicate (no file is created then). -/
def append_event (s : MemStore) (now : ℚ) (newId content : String)
    (entities : List String) (etype source category : String)
    (sourceIds : List String) (problemType : String) : MemStore × Option String :=
  if _is_duplicate s now content then (s, none)
  else
    let entities :=
      if problemType ≠ "" && !entities.contains problemType
      then entities ++ [problemType] else entities
    let ev : Event :=
      { id := newId, ts := some now, type := etype, content := content
        entities := entities, source := source, category := category
        problemType := problemType, sourceIds := sourceIds }
    ({ files := s.files ++ [⟨newId, ev, now⟩]
       manifest := _update_manifest s.manifest newId entities }, some newId)

/-- Descending `(mtime, id)` order used by the rebuild's
`entries.sort(reverse=True)`: `a` sorts before `b`. -/
def rankedBefore (a b : StoredFile) : Bool :=
  if a.mtime = b.mtime then decide (b.eid ≤ a.eid) else decide (b.mtime ≤ a.mtime)

def insertRanked (a : StoredFile) : List StoredFile → List StoredFile
  | [] => [a]
  | b :: bs => if rankedBefore a b then a :: b :: bs else b :: insertRanked a bs

/-- The rebuild's sorted `entries`: files in descending `(mtime, id)` order. -/
def sortFilesDesc (files : List StoredFile) : List StoredFile :=
  files.foldr insertRanked []

/-- The rebuild's entity index: ids are appended (no per-key cap, unlike
`_update_manifest`), events without an id are skipped. -/
def appendIdAt (idx : String → List String) (key eid : String) : String → List String :=
  let ids := idx key
  let ids' := if eid ∈ ids then ids else ids ++ [eid]
  fun k => if k = key then ids' else idx k

def rebuildIndexEvent (idx : String → List String) (ev : Event) : String → List String :=
  if ev.id = "" then idx
  else
    ev.entities.foldl (fun ix ent =>
      let key := _normalize_entity_key ent
      if key = "" then ix
      else
        let ix1 := appendIdAt ix key ev.id
        if key.contains '.' then appendIdAt ix1 (rsplitStem key) ev.id else ix1) idx

/-- The manifest `_rebuild_and_return` writes back. -/
def rebuildManifest (s : MemStore) : Manifest :=
  { recent := ((sortFilesDesc s.files).map (·.eid)).take 50
    totalCount := s.files.length
    entityIndex := s.files.foldl (fun ix f => rebuildIndexEvent ix f.event) (fun _ => []) }

/-- `_rebuild_and_return`'s return value, as ids: the `limit` most recent
files by `(mtime, id)` — the query entities play no part in this path. -/
def rebuildAndReturnIds (s : MemStore) (limit : ℕ) : List String :=
  ((sortFilesDesc s.files).map (·.eid)).take limit

/-- The keys `get_events_by_entities` looks up in the inverted index for one
query entity: the lowercased-stripped entity, the lowercased basename for
path-like entities, and the extension-stripped stem. -/
def cachedQueryKeys (ent : String) : List String :=
  let key := ent.toLower.trim
  key :: ((if ent.contains '/' then [(lastComp ent).toLower] else [])
    ++ (if key.contains '.' then [rsplitStem key] else []))

/-- The index-matched ids of `get_events_by_entities`: synonym-expand the
query, then union the index lists of every queried key. The source orders
these by per-id match count (descending); the claims below are about
membership, which that stable reordering does not change. -/
def cachedMatchedIds (idx : String → List String) (query : List String) : List String :=
  let expanded := query ++ query.flatMap (fun e => get_synonyms e.toLower)
  expanded.flatMap (fun ent => (cachedQueryKeys ent).flatMap idx)

/-- `get_events_by_entities` when the manifest loads (the cached path):
index matches first, then the still-unseen recent ids (freshness
guarantee), deduplicated, keeping only ids whose event file loads. -/
def cachedQueryIds (s : MemStore) (query : List String) (recentLimit : ℕ) : List String :=
  (dedupKeepFirst
      (cachedMatchedIds s.manifest.entityIndex query
        ++ s.manifest.recent.take recentLimit)).filter
    (fun eid => (lookupFile s eid).isSome)

/-- `get_events_by_entities`: the cached path when the manifest exists and
parses (`manifestOk`), otherwise the `_rebuild_and_return` fallback — which
ignores the query entirely. -/
def get_events_by_entities (s : MemStore) (manifestOk : Bool) (query : List String)
    (recentLimit : ℕ) : List String :=
  if manifestOk then cachedQueryIds s query recentLimit
  else rebuildAndReturnIds s recentLimit

/-! ## `compound-context-loader.py`: gated scoring loop (main, lines 409-429) -/

def MAX_EVENTS : ℕ := 5

/-- The time-bound entity gate condition of the selection loop:
`entity_score == 0.0 and event_age_hours(event) >= ENTITY_GATE_BYPASS_HOURS`. -/
def gateRejects (now : ℚ) (basenames stems dirs : List String) (ev : Event) : Bool :=
  decide (entity_overlap_score ev basenames stems dirs = 0)
    && decide (ENTITY_GATE_BYPASS_HOURS ≤ event_age_hours now ev)

open Classical in
/-- The loop over `events`: skip gate-rejected events, skip events whose
content overlaps native MEMORY.md (`memOverlap` stands for
`memory_tokens and _event_overlaps_memory(event, memory_tokens)`, which the
gate claim is independent of), keep the rest when they reach
`MIN_SCORE_SESSION_START`, paired with their score. -/
noncomputable def gatedScored (now : ℚ) (basenames stems dirs : List String)
    (util : String → Option (ℕ × ℕ)) (memOverlap : Event → Bool) :
    List Event → List (Event × ℝ)
  | [] => []
  | ev :: rest =>
      if gateRejects now basenames stems dirs ev then
        gatedScored now basenames stems dirs util memOverlap rest
      else if memOverlap ev then
        gatedScored now basenames stems dirs util memOverlap rest
      else if MIN_SCORE_SESSION_START ≤ score_event now basenames stems dirs util ev then
        (ev, score_event now basenames stems dirs util ev)
          :: gatedScored now basenames stems dirs util memOverlap rest
      else gatedScored now basenames stems dirs util memOverlap rest

open Classical in
noncomputable def insertByScore (p : Event × ℝ) :
    List (Event × ℝ) → List (Event × ℝ)
  | [] => [p]
  | q :: qs => if q.2 ≤ p.2 then p :: q :: qs else q :: insertByScore p qs

/-- `scored.sort(key=..., reverse=True)`: the scored list in descending
score order. -/
noncomputable def sortByScoreDesc : List (Event × ℝ) → List (Event × ℝ)
  | [] => []
  | p :: rest => insertByScore p (sortByScoreDesc rest)

/-- `top_events = scored[:MAX_EVENTS]` after the sort: what the hook
injects. -/
noncomputable def topInjected (now : ℚ) (basenames stems dirs : List String)
    (util : String → Option (ℕ × ℕ)) (memOverlap : Event → Bool)
    (events : List Event) : List (Event × ℝ) :=
  (sortByScoreDesc (gatedScored now basenames stems dirs util memOverlap events)).take
    MAX_EVENTS

/-! ## `consolidate-memory.py` -/

def MIN_CLUSTER_SIZE : ℕ := 3

def JACCARD_THRESHOLD : ℚ := 1/4

def MAX_SCHEMA_CONTENT_LEN : ℕ := 500

/-- The normalization `_entity_set` and `_generate_schema` share: basename
lowercased when the entity has a `/` or a `.` anywhere, else lowercased
(no strip, unlike `_normalize_entity_key`). -/
def consolidationKey (e : String) : String :=
  if e.contains '/' || e.contains '.' then (lastComp e).toLower else e.toLower

/-- `_entity_set`: the normalized entity set of an event. -/
def _entity_set (ev : Event) : Finset String :=
  (ev.entities.map consolidationKey).toFinset

/-- `_jaccard`: 0 for an empty side, else `|a ∩ b| / |a ∪ b|`. -/
def _jaccard (a b : Finset String) : ℚ :=
  if a = ∅ ∨ b = ∅ then 0 else ((a ∩ b).card : ℚ) / ((a ∪ b).card : ℚ)

/-- Neighbors of node `i` in the similarity graph: every other index whose
entity set has Jaccard ≥ 0.25 with `i`'s (the Python set is iterated in
ascending index order; component membership does not depend on the order). -/
def adjacencyOf (sets : List (Finset String)) (i : ℕ) : List ℕ :=
  (List.range sets.length).filter (fun j =>
    j ≠ i && decide (JACCARD_THRESHOLD ≤ _jaccard (sets.getD i ∅) (sets.getD j ∅)))

/-- The BFS of `_cluster_events`, with explicit fuel: pop the queue, skip
visited nodes, otherwise record the node and enqueue its unvisited
neighbors. The fuel passed by `_cluster_events` exceeds every possible
number of loop iterations, so the queue always drains, as in the source. -/
def bfsAux (adj : ℕ → List ℕ) : ℕ → List ℕ → List ℕ → List ℕ × List ℕ
  | 0, _, visited => ([], visited)
  | _ + 1, [], visited => ([], visited)
  | fuel + 1, node :: queue, visited =>
      if node ∈ visited then bfsAux adj fuel queue visited
      else
        let visited' := node :: visited
        let r := bfsAux adj fuel (queue ++ (adj node).filter (· ∉ visited')) visited'
        (node :: r.1, r.2)

/-- `_cluster_events`: connected components of the similarity graph via BFS,
keeping only components of size ≥ `MIN_CLUSTER_SIZE`. -/
def _cluster_events (events : List Event) : List (List Event) :=
  let sets := events.map _entity_set
  let n := events.length
  let adj := adjacencyOf sets
  let r := (List.range n).foldl (fun (acc : List (List ℕ) × List ℕ) i =>
    if i ∈ acc.2 then acc
    else
      let c := bfsAux adj (n * n + n + 1) [i] acc.2
      (if MIN_CLUSTER_SIZE ≤ c.1.length then acc.1 ++ [c.1] else acc.1, c.2)) ([], [])
  r.1.map (fun comp => comp.map (fun i => events.getD i {}))

/-- The first `LESSON:`-prefixed line of a content, if its payload is
nonempty and longer than 20 characters (the source breaks at the first such
line either way). -/
def firstLesson (content : String) : Option String :=
  match (content.splitOn "\n").find? (fun line => line.startsWith "LESSON:") with
  | none => none
  | some line =>
      let lesson := (line.drop 7).trim
      if lesson ≠ "" ∧ 20 < lesson.length then some lesson else none

/-- Entity frequency in insertion order (Python dict semantics). -/
def bumpFreq (l : List (String × ℕ)) (k : String) : List (String × ℕ) :=
  if l.any (fun p => p.1 = k) then
    l.map (fun p => if p.1 = k then (p.1, p.2 + 1) else p)
  else l ++ [(k, 1)]

def entityFreq (cluster : List Event) : List (String × ℕ) :=
  cluster.foldl (fun acc ev =>
    ev.entities.foldl (fun a e => bumpFreq a (consolidationKey e)) acc) []

/-- Lessons deduplicated by 40-character prefix, keeping first occurrences.
The source lowercases the prefix before comparing. -/
def dedupLessons : List String → List String → List String
  | [], _ => []
  | l :: ls, seen =>
      let p := (l.take 40).toLower
      if p ∈ seen then dedupLessons ls seen else l :: dedupLessons ls (p :: seen)

/-- `max(set(categories), key=categories.count)`: a category of maximal
count. Python's set iteration order is unspecified; the model takes the
first maximizer in first-occurrence order (the claims only evaluate this
where the maximizer is unique). -/
def mostCommon (l : List String) : String :=
  (dedupKeepFirst l).foldl
    (fun best c => if l.count best < l.count c then c else best) (l.headD "")

structure SchemaData where
  content : String
  entities : List String
  category : String
  sourceCount : ℕ
  sourceIds : List String
deriving DecidableEq

/-- `_generate_schema`: shared entities (appearing in ≥ 2 events, plus long
unique ones), deduplicated and capped at 15; content from deduplicated
lessons or, lacking lessons, content previews of the first 5 events;
truncated to 500; majority category. -/
def _generate_schema (cluster : List Event) : SchemaData :=
  let freq := entityFreq cluster
  let shared := (freq.filter (fun p => 2 ≤ p.2)).map (·.1)
    ++ (freq.filter (fun p => p.2 = 1 ∧ 5 < p.1.length)).map (·.1)
  let sharedEntities := (dedupKeepFirst shared).take 15
  let lessons := cluster.filterMap (fun ev => firstLesson ev.content)
  let content :=
    if !lessons.isEmpty then
      "SCHEMA: " ++ String.intercalate " | " ((dedupLessons lessons []).take 5)
    else
      "SCHEMA: " ++ String.intercalate " | "
        ((cluster.take 5).filterMap (fun ev =>
          let c := ev.content.trim
          if c = "" then none else some (c.take 100)))
  let content :=
    if MAX_SCHEMA_CONTENT_LEN < content.length
    then content.take (MAX_SCHEMA_CONTENT_LEN - 3) ++ "..." else content
  let categories := cluster.filterMap (fun ev =>
    if ev.category = "" then none else some ev.category)
  { content := content
    entities := sharedEntities
    category := if categories.isEmpty then "architecture" else mostCommon categories
    sourceCount := cluster.length
    sourceIds := cluster.filterMap (fun ev => if ev.id = "" then none else some ev.id) }

structure ConsolidateStats where
  cluster_count : ℕ := 0
  schema_count : ℕ := 0
  archived_count : ℕ := 0
deriving DecidableEq

/-- Mark one source event archived: set `meta.archived_by` and rewrite the
file (mtime bumps to now). Returns whether the file existed. -/
def archiveSource (files : List StoredFile) (sourceId schemaId : String) (now : ℚ) :
    List StoredFile × Bool :=
  if files.any (fun f => f.eid = sourceId) then
    (files.map (fun f =>
      if f.eid = sourceId then
        { f with event := { f.event with archivedBy := some schemaId }, mtime := now }
      else f), true)
  else (files, false)

/-- `consolidate`: filter to non-schema, non-archived, non-bootstrap events;
cluster; per cluster either count (dry run) or append one schema event and
archive its sources. `newIds` supplies the generated event ids, one per
schema actually appended. -/
def consolidate (s : MemStore) (now : ℚ) (newIds : List String) (dryRun : Bool) :
    MemStore × ConsolidateStats :=
  let events := s.files.filterMap (fun f =>
    if f.event.type = "schema" then none
    else if f.event.archivedBy.isSome then none
    else if f.event.source = "async-task-bootstrap" || f.event.source = "bootstrap" then none
    else some f.event)
  if events.length < MIN_CLUSTER_SIZE then (s, {})
  else
    let clusters := _cluster_events events
    let r := clusters.foldl
      (fun (acc : MemStore × ConsolidateStats × List String) cluster =>
        let cur := acc.1
        let st := acc.2.1
        let ids := acc.2.2
        let schema := _generate_schema cluster
        if dryRun then
          (cur, { st with schema_count := st.schema_count + 1
                          archived_count := st.archived_count + cluster.length }, ids)
        else
          let a := append_event cur now (ids.headD "") schema.content schema.entities
            "schema" "consolidation" schema.category schema.sourceIds ""
          match a.2 with
          | none => (a.1, st, ids.tail)
          | some schemaId =>
              let arch := schema.sourceIds.foldl
                (fun (fa : List StoredFile × ℕ) sid =>
                  let step := archiveSource fa.1 sid schemaId now
                  (step.1, if step.2 then fa.2 + 1 else fa.2))
                (a.1.files, 0)
              ({ a.1 with files := arch.1 },
               { st with schema_count := st.schema_count + 1
                         archived_count := st.archived_count + arch.2 }, ids.tail))
      (s, { cluster_count := clusters.length }, newIds)
    (r.1, r.2.1)

/-! ## `atomic_write_json` (`_memory.py` lines 44-75) -/

/-- A directory as a partial map from names to file contents. -/
def FS : Type := String → Option String

/-- Create, overwrite or (with `none`) unlink a file. -/
def setFile (fs : FS) (p : String) (v : Option String) : FS :=
  fun q => if q = p then v else fs q

/-- Where the guarded block of `atomic_write_json` can raise: during the
serialize/write/flush/fsync of the temp file (leaving it partially
written), or during the final `os.replace`. -/
inductive WriteFailure where
  | duringWrite (partialData : String)
  | duringReplace
deriving DecidableEq

/-- `atomic_write_json` over the abstract directory: `mkstemp` creates the
sibling temp file; the try-block writes it and renames it onto `dest`; on
any exception the temp file is unlinked and the exception re-raised (the
returned Bool). `data` is the serialized JSON text. -/
def atomic_write_json (fs : FS) (dest tmp : String) (data : String)
    (failure : Option WriteFailure) : FS × Bool :=
  let fs1 := setFile fs tmp (some "")
  match failure with
  | some (.duringWrite partialData) =>
      (setFile (setFile fs1 tmp (some partialData)) tmp none, true)
  | some .duringReplace =>
      (setFile (setFile fs1 tmp (some data)) tmp none, true)
  | none =>
      let fs2 := setFile fs1 tmp (some data)
      (setFile (setFile fs2 dest (some data)) tmp none, false)

/-! ## Theorems -/

/-- C4. `is_state_expired` reports a record expired exactly when `now` minus
its timestamp (`last_activity_at`, falling back to `started_at` when absent)
exceeds 8 hours: a record at `now - 8h - 1s` is expired, one at `now - 7h59m`
is active, and records with no parsable timestamp at all (missing fields, or
a present but malformed value) are expired. -/
theorem C4_ttl_expiry : ∀ now ts : ℚ,
    (is_state_expired now { lastActivityAt := some (some ts) } = true
      ↔ 8 * 3600 < now - ts)
  ∧ (is_state_expired now { lastActivityAt := none, startedAt := some (some ts) } = true
      ↔ 8 * 3600 < now - ts)
  ∧ is_state_expired now { lastActivityAt := some (some (now - (8 * 3600 + 1))) } = true
  ∧ is_state_expired now { lastActivityAt := some (some (now - (7 * 3600 + 59 * 60))) } = false
  ∧ is_state_expired now { lastActivityAt := some none } = true
  ∧ is_state_expired now { lastActivityAt := none, startedAt := some none } = true
  ∧ is_state_expired now ({} : TimeState) = true := by
  intro now ts
  refine ⟨?_, ?_, ?_, ?_, ?_, ?_, ?_⟩ <;>
    simp [is_state_expired, stateTimestamp, SESSION_TTL_HOURS] <;> norm_num

/-- C9. `atomic_write_json` never leaves the temp file behind; on any
exception (mid-write or during the rename) the destination keeps its
previous contents and the exception is re-raised; on success the
destination holds exactly the new bytes. -/
theorem C9_atomic_write : ∀ (fs : FS) (dest tmp data : String)
    (failure : Option WriteFailure), tmp ≠ dest →
    ((atomic_write_json fs dest tmp data failure).1 tmp = none)
  ∧ (failure.isSome →
      (atomic_write_json fs dest tmp data failure).2 = true
      ∧ (atomic_write_json fs dest tmp data failure).1 dest = fs dest)
  ∧ (failure = none →
      (atomic_write_json fs dest tmp data failure).2 = false
      ∧ (atomic_write_json fs dest tmp data failure).1 dest = some data) := by
  intro fs dest tmp data failure hne
  have hne' : dest ≠ tmp := Ne.symm hne
  rcases failure with _ | f
  · simp [atomic_write_json, setFile, hne']
  · cases f <;> simp [atomic_write_json, setFile, hne']

/-- C9 witness: a mid-write failure over a concrete one-file directory. -/
theorem C9_atomic_write_witness :
    ("t" : String) ≠ "d"
  ∧ (atomic_write_json (fun _ => none) "d" "t" "x" (some (.duringWrite "pa"))).1 "t"
      = none :=
  ⟨by decide,
   (C9_atomic_write (fun _ => none) "d" "t" "x" (some (.duringWrite "pa")) (by decide)).1⟩

/-- C10. For every pid ≤ 0, `is_pid_alive` returns `False` without probing
the operating system: the result is `false` and does not depend on the
probe oracle at all. -/
theorem C10_pid_guard : ∀ (probe probe' : ℤ → KillOutcome) (pid : ℤ), pid ≤ 0 →
    is_pid_alive probe pid = false ∧ is_pid_alive probe pid = is_pid_alive probe' pid := by
  intro probe probe' pid h
  simp [is_pid_alive, h]

/-- C10 witness: pid 0 with an oracle that claims every process exists. -/
theorem C10_pid_guard_witness :
    (0 : ℤ) ≤ 0
  ∧ is_pid_alive (fun _ => .ok) 0 = false
  ∧ is_pid_alive (fun _ => .ok) 0 = is_pid_alive (fun _ => .processLookupError) 0 :=
  ⟨le_refl 0,
   (C10_pid_guard (fun _ => .ok) (fun _ => .processLookupError) 0 (le_refl 0)).1,
   (C10_pid_guard (fun _ => .ok) (fun _ => .processLookupError) 0 (le_refl 0)).2⟩

/-- The concrete record refuting C2 as stated: session id matches the
caller, the record is unexpired, but cwd lies outside `origin_project`. -/
def c2record : UserState :=
  { time := { lastActivityAt := some (some 0) }
    sessionId := "s1"
    originProject := some ["home", "u", "projA"]
    sessions := [] }

/-- C2 counterexample: `_session.py`'s `get_autonomous_state` does NOT honor
an unexpired user-level record whose session id matches the caller when cwd
is outside `origin_project` — the session match does not bypass the origin
check there (while `_common.py`'s variant does honor it). -/
theorem C2_cex_session_match_not_honored :
    c2record.sessionId = "s1"
  ∧ is_state_expired 0 c2record.time = false
  ∧ sessionUserStateHonored 0 ["tmp", "other"] c2record "s1" = false
  ∧ commonUserStateHonored 0 ["tmp", "other"] c2record "s1" = true := by
  refine ⟨rfl, ?_, ?_, ?_⟩ <;> with_unfolding_all decide

/-- C2 (amended). Exact honoring conditions of the two `get_autonomous_state`
variants for an unexpired user-level record. `_common.py` (via
`_is_cwd_under_origin`) implements the guarded disjunction: a session id
found in the multi-session map decides by that entry's own expiry alone;
otherwise a matching record session id is honored regardless of directory;
otherwise the record is honored iff `origin_project` is unset or cwd is the
origin or a descendant. `_session.py` instead conjoins the checks: the
session must not mismatch AND cwd must be under the origin (when both are
set), so a session match does not bypass the origin check. -/
theorem C2_user_honor_characterization :
    ∀ (now : ℚ) (cwd : List String) (st : UserState) (sid : String),
    (commonUserStateHonored now cwd st sid = true ↔
      is_state_expired now st.time = false ∧
        ((∃ info, (if sid ≠ "" then lookupSession st.sessions sid else none) = some info
            ∧ is_state_expired now info = false)
        ∨ ((if sid ≠ "" then lookupSession st.sessions sid else none) = none
            ∧ sid ≠ "" ∧ st.sessionId = sid)
        ∨ ((if sid ≠ "" then lookupSession st.sessions sid else none) = none
            ∧ ¬(sid ≠ "" ∧ st.sessionId = sid)
            ∧ (st.originProject = none
                ∨ ∃ origin, st.originProject = some origin ∧ leadsTo origin cwd = true))))
  ∧ (sessionUserStateHonored now cwd st sid = true ↔
      is_state_expired now st.time = false
      ∧ (sid = "" ∨ st.sessionId = "" ∨ st.sessionId = sid)
      ∧ (st.originProject = none ∨ cwd = []
          ∨ ∃ origin, st.originProject = some origin ∧ leadsTo origin cwd = true)) := by
  intro now cwd st sid
  constructor
  · unfold commonUserStateHonored _is_cwd_under_origin
    rcases hL : (if sid ≠ "" then lookupSession st.sessions sid else none) with _ | info
    · by_cases hs : sid ≠ "" ∧ st.sessionId = sid
      · have hb : (decide (sid ≠ "") && decide (st.sessionId = sid)) = true := by
          simp [hs.1, hs.2]
        simp only [hb, if_true]
        simp [hs]
      · have hb : (decide (sid ≠ "") && decide (st.sessionId = sid)) = false := by
          rcases not_and_or.mp hs with h | h <;> simp [h]
        simp only [hb, Bool.false_eq_true, if_false]
        rcases ho : st.originProject with _ | origin
        · simp [hs]
        · simp [hs, ho]
    · simp
  · unfold sessionUserStateHonored
    by_cases he : is_state_expired now st.time = true
    · simp [he]
    · rw [Bool.not_eq_true] at he
      simp only [he, Bool.false_eq_true, if_false]
      by_cases hs : sid ≠ "" ∧ st.sessionId ≠ "" ∧ st.sessionId ≠ sid
      · have hb : ((decide (sid ≠ "") && decide (st.sessionId ≠ ""))
            && decide (st.sessionId ≠ sid)) = true := by
          simp [hs.1, hs.2.1, hs.2.2]
        simp only [hb, if_true]
        constructor
        · intro h; exact absurd h (by simp)
        · rintro ⟨-, hc, -⟩
          rcases hc with hc | hc | hc
          · exact absurd hc hs.1
          · exact absurd hc hs.2.1
          · exact absurd hc hs.2.2
      · have hb : ((decide (sid ≠ "") && decide (st.sessionId ≠ ""))
            && decide (st.sessionId ≠ sid)) = false := by
          rcases not_and_or.mp hs with h | h
          · simp [show sid = "" by simpa using h]
          · rcases not_and_or.mp h with h | h
            · simp [show st.sessionId = "" by simpa using h]
            · simp [show st.sessionId = sid by simpa using h]
        simp only [hb, Bool.false_eq_true, if_false]
        have hsess : sid = "" ∨ st.sessionId = "" ∨ st.sessionId = sid := by
          rcases not_and_or.mp hs with h | h
          · exact Or.inl (by simpa using h)
          · rcases not_and_or.mp h with h | h
            · exact Or.inr (Or.inl (by simpa using h))
            · exact Or.inr (Or.inr (by simpa using h))
        rcases ho : st.originProject with _ | origin
        · simp [he, hsess]
        · rcases hc : cwd with _ | ⟨c, cs⟩
          · simp [he, hsess]
          · simp only [List.isEmpty_cons, Bool.false_eq_true, if_false]
            simp [he, hsess, ho]

lemma entityTier_le_one (b s d : List String) (e : String) :
    entityTier b s d e ≤ 1 := by
  unfold entityTier
  dsimp only
  split_ifs <;> norm_num

lemma entity_overlap_score_le_one (ev : Event) (b s d : List String) :
    entity_overlap_score ev b s d ≤ 1 := by
  unfold entity_overlap_score
  split_ifs with h
  · norm_num
  · have : ∀ (l : List String) (acc : ℚ), acc ≤ 1 →
        l.foldl (fun best e => max best (entityTier b s d e)) acc ≤ 1 := by
      intro l
      induction l with
      | nil => intro acc h; simpa using h
      | cons e t ih =>
          intro acc hacc
          exact ih _ (max_le hacc (entityTier_le_one b s d e))
    exact this ev.entities 0 (by norm_num)

lemma event_age_hours_nonneg (now : ℚ) (ev : Event) : 0 ≤ event_age_hours now ev := by
  unfold event_age_hours
  rcases ev.ts with _ | t
  · norm_num
  · exact le_max_left 0 _

lemma utility_bonus_bounds (ev : Event) (util : String → Option (ℕ × ℕ)) :
    0 ≤ utility_bonus ev util ∧ utility_bonus ev util ≤ 1/20 := by
  unfold utility_bonus
  split_ifs
  · norm_num
  · rcases util ev.id with _ | ⟨injected, cited⟩
    · norm_num
    · dsimp only
      split_ifs <;> norm_num

lemma recencyOfAge_le_one {a : ℝ} (ha : 0 ≤ a) : recencyOfAge a ≤ 1 := by
  unfold recencyOfAge
  split_ifs with h
  · have : 0 ≤ a / 96 := by positivity
    linarith
  · push_neg at h
    have hz : (0:ℝ) ≤ ((a - 48) / 24) / 7 := by
      have : (0:ℝ) ≤ a - 48 := by linarith
      positivity
    have := Real.rpow_le_one (x := (0.5:ℝ)) (by norm_num) (by norm_num) hz
    nlinarith

/-- The freshness curve is monotonically non-increasing in age. -/
lemma recencyOfAge_antitone : Antitone recencyOfAge := by
  intro a b hab
  unfold recencyOfAge
  split_ifs with hb ha ha
  · linarith
  · push_neg at ha
    linarith
  · push_neg at hb
    have hz : (0:ℝ) ≤ ((b - 48) / 24) / 7 := by
      have : (0:ℝ) ≤ b - 48 := by linarith
      positivity
    have h1 := Real.rpow_le_one (x := (0.5:ℝ)) (by norm_num) (by norm_num) hz
    have h2 : a / 96 < 1/2 := by linarith
    nlinarith
  · push_neg at hb ha
    have hexp : ((a - 48) / 24) / 7 ≤ ((b - 48) / 24) / 7 := by linarith
    have h1 := Real.rpow_le_rpow_of_exponent_ge (x := (0.5:ℝ))
      (by norm_num) (by norm_num) hexp
    nlinarith

lemma recencyOfAge_eq_piecewise :
    recencyOfAge = fun a : ℝ =>
      if a ≤ 48 then 1 - a / 96 else 0.5 * (0.5:ℝ) ^ (((a - 48) / 24) / 7) := by
  funext a
  unfold recencyOfAge
  rcases lt_trichotomy a 48 with h | h | h
  · rw [if_pos h, if_pos h.le]
  · subst h
    rw [if_neg (lt_irrefl _), if_pos le_rfl]
    norm_num
  · rw [if_neg (not_lt.mpr h.le), if_neg (not_le.mpr h)]

lemma recencyOfAge_continuous : Continuous recencyOfAge := by
  rw [recencyOfAge_eq_piecewise]
  have hexp : ∀ x : ℝ, (0.5:ℝ) ^ (((x - 48) / 24) / 7)
      = Real.exp (Real.log 0.5 * (((x - 48) / 24) / 7)) := by
    intro x
    rw [Real.rpow_def_of_pos (by norm_num)]
  have h2 : Continuous fun a : ℝ => 0.5 * (0.5:ℝ) ^ (((a - 48) / 24) / 7) := by
    simp only [hexp]
    exact continuous_const.mul (Real.continuous_exp.comp
      (continuous_const.mul (((continuous_id.sub continuous_const).div_const 24).div_const 7)))
  exact Continuous.if_le (by continuity) h2 continuous_id continuous_const
    (by intro x hx; subst hx; norm_num)

/-- C7. `recency_score` is the piecewise curve applied to the event's age:
linear from 1.0 to 0.5 over the first 48 hours, then exponential with a
7-day half-life anchored at 0.5; the curve is continuous at the 48-hour
boundary, takes the value 0.5 there, and is monotonically non-increasing
in age. -/
theorem C7_recency_curve :
    ContinuousAt recencyOfAge 48
  ∧ Antitone recencyOfAge
  ∧ recencyOfAge 48 = 1/2
  ∧ (∀ a : ℝ, a < 48 → recencyOfAge a = 1 - a / 96)
  ∧ (∀ a : ℝ, 48 ≤ a → recencyOfAge a = 0.5 * (0.5:ℝ) ^ (((a - 48) / 24) / 7))
  ∧ (∀ (now : ℚ) (ev : Event),
      recency_score now ev = recencyOfAge (event_age_hours now ev : ℚ)) := by
  refine ⟨recencyOfAge_continuous.continuousAt, recencyOfAge_antitone, ?_, ?_, ?_,
    fun _ _ => rfl⟩
  · unfold recencyOfAge
    rw [if_neg (lt_irrefl _), show ((48:ℝ) - 48) / 24 / 7 = 0 by norm_num,
      Real.rpow_zero]
    norm_num
  · intro a ha
    unfold recencyOfAge
    rw [if_pos ha]
  · intro a ha
    unfold recencyOfAge
    rw [if_neg (not_lt.mpr ha)]

/-- The concrete input refuting the 1.0 clamp: a basename-matched entity
(tier 1.0), a brand-new event (recency 1.0) and a utility bonus
(3 injections, 1 citation). -/
def c1event : Event := { id := "e1", ts := some 0, content := "c", entities := ["a.py"] }

def c1util : String → Option (ℕ × ℕ) := fun i => if i = "e1" then some (3, 1) else none

/-- C1 counterexample: `score_event` applies no clamp — at the input above it
returns exactly 1.05, which exceeds 1.0. -/
theorem C1_cex_score_exceeds_one :
    (1 : ℝ) < score_event 0 ["a.py"] [] [] c1util c1event
  ∧ score_event 0 ["a.py"] [] [] c1util c1event = 1.05 := by
  have he : entity_overlap_score c1event ["a.py"] [] [] = 1 := by
    with_unfolding_all decide
  have ha : event_age_hours 0 c1event = 0 := by
    with_unfolding_all decide
  have hu : utility_bonus c1event c1util = 1/20 := by
    with_unfolding_all decide
  have hr : recency_score 0 c1event = 1 := by
    unfold recency_score
    rw [ha]
    unfold recencyOfAge
    rw [if_pos (by norm_num)]
    norm_num
  constructor <;>
    · unfold score_event
      rw [he, hr, hu]
      norm_num

/-- C1 (amended). `score_event` is exactly the unclamped weighted sum
`0.60 * entity + 0.40 * recency + utility bonus`; it is bounded by 1.05,
not by 1.0 (the counterexample shows 1.05 is attained). -/
theorem C1_score_unclamped_bound :
    ∀ (now : ℚ) (basenames stems dirs : List String)
      (util : String → Option (ℕ × ℕ)) (ev : Event),
    score_event now basenames stems dirs util ev
      = 0.60 * (entity_overlap_score ev basenames stems dirs : ℝ)
        + 0.40 * recency_score now ev + (utility_bonus ev util : ℝ)
  ∧ score_event now basenames stems dirs util ev ≤ 1.05 := by
  intro now basenames stems dirs util ev
  refine ⟨rfl, ?_⟩
  have he : (entity_overlap_score ev basenames stems dirs : ℝ) ≤ 1 := by
    exact_mod_cast entity_overlap_score_le_one ev basenames stems dirs
  have hr : recency_score now ev ≤ 1 := by
    unfold recency_score
    exact recencyOfAge_le_one (by exact_mod_cast event_age_hours_nonneg now ev)
  have hu : (utility_bonus ev util : ℝ) ≤ 1/20 := by
    have := (utility_bonus_bounds ev util).2
    have : (utility_bonus ev util : ℝ) ≤ ((1/20 : ℚ) : ℝ) := by exact_mod_cast this
    simpa using this
  unfold score_event
  norm_num
  linarith

lemma gatedScored_gate_false (now : ℚ) (basenames stems dirs : List String)
    (util : String → Option (ℕ × ℕ)) (memOverlap : Event → Bool) :
    ∀ (events : List Event) (p : Event × ℝ),
      p ∈ gatedScored now basenames stems dirs util memOverlap events →
      gateRejects now basenames stems dirs p.1 = false := by
  intro events
  induction events with
  | nil => intro p hp; simp [gatedScored] at hp
  | cons e t ih =>
      intro p hp
      unfold gatedScored at hp
      by_cases hg : gateRejects now basenames stems dirs e = true
      · rw [if_pos hg] at hp
        exact ih p hp
      · rw [if_neg hg] at hp
        split_ifs at hp
        · exact ih p hp
        · rcases List.mem_cons.mp hp with h | h
          · subst h
            exact Bool.not_eq_true _ ▸ Bool.eq_false_iff.mpr hg
          · exact ih p h
        · exact ih p hp

lemma mem_insertByScore (p q : Event × ℝ) :
    ∀ l, q ∈ insertByScore p l → q = p ∨ q ∈ l := by
  intro l
  induction l with
  | nil => intro h; simpa [insertByScore] using h
  | cons r t ih =>
      intro h
      unfold insertByScore at h
      split_ifs at h
      · rcases List.mem_cons.mp h with h | h
        · exact Or.inl h
        · exact Or.inr h
      · rcases List.mem_cons.mp h with h | h
        · exact Or.inr (h ▸ List.mem_cons_self r t)
        · rcases ih h with h | h
          · exact Or.inl h
          · exact Or.inr (List.mem_cons_of_mem r h)

lemma mem_sortByScoreDesc (q : Event × ℝ) :
    ∀ l, q ∈ sortByScoreDesc l → q ∈ l := by
  intro l
  induction l with
  | nil => intro h; simpa [sortByScoreDesc] using h
  | cons p t ih =>
      intro h
      unfold sortByScoreDesc at h
      rcases mem_insertByScore p q _ h with h | h
      · exact h ▸ List.mem_cons_self p t
      · exact List.mem_cons_of_mem p (ih h)

/-- C6. The time-bound entity gate of session-start retrieval: an event with
entity-overlap score exactly 0 whose age exceeds 4 hours is excluded from
the injected result regardless of its recency; an otherwise-identical event
younger than 4 hours is not excluded by the gate (it can only fail the
minimum-score threshold). -/
theorem C6_entity_gate :
    ∀ (now : ℚ) (basenames stems dirs : List String)
      (util : String → Option (ℕ × ℕ)) (memOverlap : Event → Bool)
      (events : List Event) (ev : Event),
    entity_overlap_score ev basenames stems dirs = 0 →
    ((ENTITY_GATE_BYPASS_HOURS < event_age_hours now ev →
        ev ∉ (topInjected now basenames stems dirs util memOverlap events).map Prod.fst)
     ∧ (event_age_hours now ev < ENTITY_GATE_BYPASS_HOURS →
        gateRejects now basenames stems dirs ev = false)) := by
  intro now basenames stems dirs util memOverlap events ev hent
  constructor
  · intro hage hmem
    rcases List.mem_map.mp hmem with ⟨p, hp, hfst⟩
    have hp1 : p ∈ sortByScoreDesc
        (gatedScored now basenames stems dirs util memOverlap events) :=
      List.mem_of_mem_take hp
    have hp2 := mem_sortByScoreDesc p _ hp1
    have hfalse := gatedScored_gate_false now basenames stems dirs util memOverlap
      events p hp2
    rw [hfst] at hfalse
    have htrue : gateRejects now basenames stems dirs ev = true := by
      unfold gateRejects
      simp [hent, le_of_lt hage]
    rw [htrue] at hfalse
    exact Bool.true_eq_false ▸ hfalse
  · intro hage
    unfold gateRejects
    simp [not_le.mpr hage]

def c6old : Event := { ts := some 0, content := "x" }

def c6fresh : Event := { ts := some 10800, content := "x" }

/-- C6 witness: at wall clock 18000s, an entity-free event from time 0 is
5 hours old and excluded; one from time 10800 is 2 hours old and passes
the gate. -/
theorem C6_entity_gate_witness :
    entity_overlap_score c6old [] [] [] = 0
  ∧ ENTITY_GATE_BYPASS_HOURS < event_age_hours 18000 c6old
  ∧ c6old ∉ (topInjected 18000 [] [] [] (fun _ => none) (fun _ => false)
      [c6old]).map Prod.fst
  ∧ entity_overlap_score c6fresh [] [] [] = 0
  ∧ event_age_hours 18000 c6fresh < ENTITY_GATE_BYPASS_HOURS
  ∧ gateRejects 18000 [] [] [] c6fresh = false :=
  ⟨by with_unfolding_all decide,
   by with_unfolding_all decide,
   (C6_entity_gate 18000 [] [] [] (fun _ => none) (fun _ => false) [c6old] c6old
      (by with_unfolding_all decide)).1 (by with_unfolding_all decide),
   by with_unfolding_all decide,
   by with_unfolding_all decide,
   (C6_entity_gate 18000 [] [] [] (fun _ => none) (fun _ => false) [c6old] c6fresh
      (by with_unfolding_all decide)).2 (by with_unfolding_all decide)⟩

lemma lookupFile_mk_append (files : List StoredFile) (m : Manifest) (nf : StoredFile)
    (eid : String) :
    lookupFile ⟨files ++ [nf], m⟩ eid
      = ((lookupFile ⟨files, m⟩ eid).or (if nf.eid = eid then some nf else none)) := by
  unfold lookupFile
  rw [List.find?_append]
  simp only [List.find?]
  by_cases h : nf.eid = eid
  · simp [h]
  · simp [h]

/-- C5. Dedup idempotence of `append_event`: if a content is fresh at `t0`
(not a duplicate) and under a new id, appending it a second time within 60
minutes returns `null` and leaves the store untouched (exactly one event
stored), while appending it again once 60 minutes have passed since the
first copy stores a second event. -/
theorem C5_dedup_idempotence :
    ∀ (s0 : MemStore) (t0 t1 t2 : ℚ) (id1 id2 c : String)
      (ents : List String) (etype src cat : String),
    _is_duplicate s0 t0 c = false →
    lookupFile s0 id1 = none →
    t1 - t0 < 3600 →
    3600 ≤ t2 - t0 →
    (append_event s0 t0 id1 c ents etype src cat [] "").2 = some id1
  ∧ (append_event s0 t0 id1 c ents etype src cat [] "").1.files.length
      = s0.files.length + 1
  ∧ append_event (append_event s0 t0 id1 c ents etype src cat [] "").1 t1 id2 c
      ents etype src cat [] ""
      = ((append_event s0 t0 id1 c ents etype src cat [] "").1, none)
  ∧ (append_event (append_event s0 t0 id1 c ents etype src cat [] "").1 t2 id2 c
      ents etype src cat [] "").2 = some id2 := by
  intro s0 t0 t1 t2 id1 id2 c ents etype src cat h0 hfresh h1 h2
  have hstep : append_event s0 t0 id1 c ents etype src cat [] ""
      = ({ files := s0.files ++ [⟨id1,
            { id := id1, ts := some t0, type := etype, content := c
              entities := ents, source := src, category := cat
              problemType := "", sourceIds := [] }, t0⟩]
           manifest := _update_manifest s0.manifest id1 ents }, some id1) := by
    unfold append_event
    rw [h0]
    simp
  set ev1 : Event :=
    { id := id1, ts := some t0, type := etype, content := c
      entities := ents, source := src, category := cat
      problemType := "", sourceIds := [] } with hev1
  set s1 : MemStore :=
    { files := s0.files ++ [⟨id1, ev1, t0⟩]
      manifest := _update_manifest s0.manifest id1 ents } with hs1
  have hfst : (append_event s0 t0 id1 c ents etype src cat [] "").1 = s1 := by
    rw [hstep]
  have hrecent : s1.manifest.recent.take 8 = id1 :: s0.manifest.recent.take 7 := by
    show ((id1 :: s0.manifest.recent).take 50).take 8 = _
    rw [List.take_take]
    norm_num
  have hlook1 : lookupFile s1 id1 = some ⟨id1, ev1, t0⟩ := by
    rw [hs1, lookupFile_mk_append]
    have : lookupFile ⟨s0.files, _update_manifest s0.manifest id1 ents⟩ id1 = none := by
      unfold lookupFile at hfresh ⊢
      exact hfresh
    rw [this]
    simp
  have hold : ∀ eid ∈ s0.manifest.recent.take 8,
      (match lookupFile s0 eid with
       | none => false
       | some f => f.event.content.take 200 = c.take 200
           && decide (t0 - f.mtime < 3600)) = false := by
    intro eid hmem
    have := List.any_eq_false.mp h0 eid hmem
    simpa using this
  -- the second append inside the window is rejected
  have hdup1 : _is_duplicate s1 t1 c = true := by
    unfold _is_duplicate
    rw [hrecent]
    apply List.any_eq_true.mpr
    refine ⟨id1, List.mem_cons_self _ _, ?_⟩
    rw [hlook1]
    simp [h1]
  -- the append after the window is accepted
  have hdup2 : _is_duplicate s1 t2 c = false := by
    unfold _is_duplicate
    rw [hrecent]
    apply List.any_eq_false.mpr
    intro eid hmem
    rcases List.mem_cons.mp hmem with h | hmem7
    · subst h
      rw [hlook1]
      simp only
      have : ¬(t2 - t0 < 3600) := not_lt.mpr h2
      simp [this]
    · have hmem8 : eid ∈ s0.manifest.recent.take 8 := by
        have h78 : s0.manifest.recent.take 7 = (s0.manifest.recent.take 8).take 7 := by
          rw [List.take_take]; norm_num
        rw [h78] at hmem7
        exact List.mem_of_mem_take hmem7
      have hf0 := hold eid hmem8
      rw [hs1, lookupFile_mk_append]
      rcases hl : lookupFile ⟨s0.files, _update_manifest s0.manifest id1 ents⟩ eid
        with _ | f
      · simp only [Option.or]
        split_ifs with hid
        · simp [not_lt.mpr h2]
        · simp
      · have hl0 : lookupFile s0 eid = some f := by
          unfold lookupFile at hl ⊢
          exact hl
        rw [hl0] at hf0
        simp only [Option.or]
        simp only at hf0
        rcases Bool.and_eq_false_iff.mp hf0 with hc | ht
        · simp [hc]
        · have hmt : ¬(t0 - f.mtime < 3600) := by
            intro hcon
            rw [decide_eq_true hcon] at ht
            exact Bool.true_eq_false ▸ ht
          have : ¬(t2 - f.mtime < 3600) := by
            push_neg at hmt ⊢
            linarith
          simp [this]
  refine ⟨by rw [hstep], ?_, ?_, ?_⟩
  · rw [hfst, hs1]
    simp
  · rw [hfst]
    unfold append_event
    rw [hdup1]
    simp
  · rw [hfst]
    unfold append_event
    rw [hdup2]
    simp

/-- C5 witness: an empty store, first append at t=0, retry at t=100
(suppressed), retry at t=3600 (stored). -/
theorem C5_dedup_idempotence_witness :
    _is_duplicate ⟨[], {}⟩ 0 "hello" = false
  ∧ lookupFile ⟨[], {}⟩ "a" = none
  ∧ (100 : ℚ) - 0 < 3600
  ∧ (3600 : ℚ) ≤ 3600 - 0
  ∧ (append_event ⟨[], {}⟩ 0 "a" "hello" ["x"] "compound" "m" "session" [] "").2
      = some "a"
  ∧ append_event (append_event ⟨[], {}⟩ 0 "a" "hello" ["x"] "compound" "m" "session" [] "").1
      100 "b" "hello" ["x"] "compound" "m" "session" [] ""
      = ((append_event ⟨[], {}⟩ 0 "a" "hello" ["x"] "compound" "m" "session" [] "").1, none)
  ∧ (append_event (append_event ⟨[], {}⟩ 0 "a" "hello" ["x"] "compound" "m" "session" [] "").1
      3600 "b" "hello" ["x"] "compound" "m" "session" [] "").2 = some "b" := by
  have h := C5_dedup_idempotence ⟨[], {}⟩ 0 100 3600 "a" "b" "hello" ["x"]
    "compound" "m" "session" (by with_unfolding_all decide) rfl
    (by norm_num) (by norm_num)
  exact ⟨by with_unfolding_all decide, rfl, by norm_num, by norm_num,
    h.1, h.2.2.1, h.2.2.2⟩

/-! ### C3: index completeness of the two retrieval paths -/

/-- The keys `_update_manifest` files an entity under: the normalized key
and, when it carries an extension, its stem; nothing for an empty key. -/
def indexKeys (entity : String) : List String :=
  let key := _normalize_entity_key entity
  if key = "" then []
  else key :: (if key.contains '.' then [rsplitStem key] else [])

/-- All keys one append touches. -/
def appKeys (entities : List String) : List String :=
  entities.flatMap indexKeys

/-- The entity index after a chronological sequence of appends
`(id, entities)`, oldest first — exactly the fold `_update_manifest`
performs append by append (starting from a manifest with no index). -/
def buildEntityIndex (apps : List (String × List String)) : String → List String :=
  apps.foldl (fun idx a => a.2.foldl (fun ix ent => updateIndexEntity ix a.1 ent) idx)
    (fun _ => [])

lemma update_manifest_entityIndex (m : Manifest) (eid : String) (ents : List String) :
    (_update_manifest m eid ents).entityIndex
      = ents.foldl (fun idx ent => updateIndexEntity idx eid ent) m.entityIndex := rfl

lemma mem_take30_cons (eid : String) (l : List String) : eid ∈ (eid :: l).take 30 := by
  rw [show (30 : ℕ) = 29 + 1 from rfl, List.take_succ_cons]
  exact List.mem_cons_self _ _

lemma insertIdAt_point (idx : String → List String) (key eid k : String) :
    insertIdAt idx key eid k
      = if k = key then (if eid ∈ idx key then idx key else (eid :: idx key).take 30)
        else idx k := rfl

lemma updateIndexEntity_point (idx : String → List String) (eid ent K : String) :
    updateIndexEntity idx eid ent K
      = if K ∈ indexKeys ent ∧ eid ∉ idx K then (eid :: idx K).take 30 else idx K := by
  unfold updateIndexEntity indexKeys
  by_cases h0 : _normalize_entity_key ent = ""
  · simp [h0]
  · rw [if_neg h0]
    simp only [if_neg h0]
    set key := _normalize_entity_key ent with hkey
    by_cases hdot : key.contains '.'
    · rw [if_pos hdot]
      simp only [if_pos hdot]
      set stem := rsplitStem key with hstem
      rw [insertIdAt_point]
      by_cases hS : K = stem
      · rw [if_pos hS]
        by_cases hK : K = key
        · have hsk : stem = key := hS ▸ hK
          rw [insertIdAt_point, if_pos hsk]
          by_cases hin : eid ∈ idx key
          · rw [if_pos hin, if_pos hin,
              if_neg (by rw [hK]; intro hc; exact hc.2 hin)]
            rw [hK]
          · rw [if_neg hin, if_pos (mem_take30_cons eid (idx key)),
              if_pos ⟨by rw [hK]; exact List.mem_cons_self _ _, by rw [hK]; exact hin⟩]
            rw [hK]
        · have hsk : stem ≠ key := fun hc => hK (hS.trans hc)
          rw [insertIdAt_point, if_neg hsk, ← hS]
          by_cases hin : eid ∈ idx K
          · rw [if_pos hin, if_neg (fun hc => hc.2 hin)]
          · rw [if_neg hin,
              if_pos ⟨List.mem_cons_of_mem _ (List.mem_cons_self _ _), hin⟩]
      · rw [if_neg hS, insertIdAt_point]
        by_cases hK : K = key
        · rw [if_pos hK, ← hK]
          by_cases hin : eid ∈ idx K
          · rw [if_pos hin, if_neg (fun hc => hc.2 hin)]
          · rw [if_neg hin, if_pos ⟨List.mem_cons_self _ _, hin⟩]
        · rw [if_neg hK,
            if_neg (by
              intro hc
              rcases List.mem_cons.mp hc.1 with h | h
              · exact hK h
              · rcases List.mem_cons.mp h with h | h
                · exact hS h
                · simp at h)]
    · rw [if_neg hdot]
      simp only [if_neg hdot]
      rw [insertIdAt_point]
      by_cases hK : K = key
      · rw [if_pos hK, ← hK]
        by_cases hin : eid ∈ idx K
        · rw [if_pos hin, if_neg (fun hc => hc.2 hin)]
        · rw [if_neg hin, if_pos ⟨List.mem_cons_self _ _, hin⟩]
      · rw [if_neg hK,
          if_neg (by
            intro hc
            rcases List.mem_cons.mp hc.1 with h | h
            · exact hK h
            · simp at h)]

lemma updateApp_point (eid K : String) :
    ∀ (ents : List String) (idx : String → List String),
    (ents.foldl (fun ix ent => updateIndexEntity ix eid ent) idx) K
      = if K ∈ appKeys ents ∧ eid ∉ idx K then (eid :: idx K).take 30 else idx K := by
  intro ents
  induction ents with
  | nil =>
      intro idx
      simp [appKeys]
  | cons e rest ih =>
      intro idx
      rw [List.foldl_cons, ih]
      have hpoint := updateIndexEntity_point idx eid e K
      by_cases h1 : K ∈ indexKeys e ∧ eid ∉ idx K
      · rw [if_pos h1] at hpoint
        have hmem : eid ∈ updateIndexEntity idx eid e K := by
          rw [hpoint]
          exact mem_take30_cons eid (idx K)
        rw [if_neg (by intro h; exact h.2 hmem), hpoint]
        rw [if_pos ⟨by
          show K ∈ (e :: rest).flatMap indexKeys
          simp only [List.flatMap_cons, List.mem_append]
          exact Or.inl h1.1, h1.2⟩]
      · rw [if_neg h1] at hpoint
        rw [hpoint]
        rcases not_and_or.mp h1 with h | h
        · by_cases h2 : K ∈ appKeys rest ∧ eid ∉ idx K
          · rw [if_pos h2, if_pos ⟨by
              show K ∈ (e :: rest).flatMap indexKeys
              simp only [List.flatMap_cons, List.mem_append]
              exact Or.inr h2.1, h2.2⟩]
          · rw [if_neg h2, if_neg (by
              intro hc
              apply h2
              refine ⟨?_, hc.2⟩
              have := hc.1
              simp only [appKeys, List.flatMap_cons, List.mem_append] at this
              rcases this with hl | hr
              · exact absurd hl h
              · exact hr)]
        · rw [not_not] at h
          rw [if_neg (by intro hc; exact hc.2 h),
            if_neg (by intro hc; exact hc.2 h)]

lemma buildIndex_complete (K : String) :
    ∀ (apps : List (String × List String)) (idx : String → List String),
      (apps.map Prod.fst).Nodup →
      (∀ a ∈ apps, a.1 ∉ idx K) →
      (idx K).length + apps.countP (fun a => decide (K ∈ appKeys a.2)) ≤ 30 →
      (∀ x ∈ idx K, x ∈ (apps.foldl
          (fun ix a => a.2.foldl (fun i ent => updateIndexEntity i a.1 ent) ix) idx) K)
      ∧ (∀ a ∈ apps, K ∈ appKeys a.2 → a.1 ∈ (apps.foldl
          (fun ix a => a.2.foldl (fun i ent => updateIndexEntity i a.1 ent) ix) idx) K) := by
  intro apps
  induction apps with
  | nil =>
      intro idx _ _ _
      constructor
      · intro x hx; simpa using hx
      · intro a ha; simp at ha
  | cons a rest ih =>
      intro idx hnodup hnotin hlen
      have hane : a.1 ∉ idx K := hnotin a (List.mem_cons_self a rest)
      have hnodup' : (rest.map Prod.fst).Nodup := by
        rw [List.map_cons] at hnodup
        exact hnodup.of_cons
      have hhead : ∀ b ∈ rest, b.1 ≠ a.1 := by
        intro b hb
        rw [List.map_cons, List.nodup_cons] at hnodup
        intro hc
        exact hnodup.1 (hc ▸ List.mem_map_of_mem Prod.fst hb)
      rw [List.foldl_cons]
      by_cases hm : K ∈ appKeys a.2
      · have hcnt : (a :: rest).countP (fun a => decide (K ∈ appKeys a.2))
            = rest.countP (fun a => decide (K ∈ appKeys a.2)) + 1 := by
          rw [List.countP_cons]
          simp [hm]
        rw [hcnt] at hlen
        have hupd : (a.2.foldl (fun i ent => updateIndexEntity i a.1 ent) idx) K
            = a.1 :: idx K := by
          rw [updateApp_point, if_pos ⟨hm, hane⟩, List.take_of_length_le]
          simp only [List.length_cons]
          omega
        have hnotin' : ∀ b ∈ rest,
            b.1 ∉ (a.2.foldl (fun i ent => updateIndexEntity i a.1 ent) idx) K := by
          intro b hb
          rw [hupd]
          intro hc
          rcases List.mem_cons.mp hc with h | h
          · exact hhead b hb h
          · exact hnotin b (List.mem_cons_of_mem a hb) h
        have hlen' : (((a.2.foldl (fun i ent => updateIndexEntity i a.1 ent) idx) K).length
            + rest.countP (fun a => decide (K ∈ appKeys a.2))) ≤ 30 := by
          rw [hupd]
          simp only [List.length_cons]
          omega
        have hih := ih _ hnodup' hnotin' hlen'
        constructor
        · intro x hx
          exact hih.1 x (by rw [hupd]; exact List.mem_cons_of_mem a.1 hx)
        · intro b hb hkb
          rcases List.mem_cons.mp hb with h | h
          · subst h
            exact hih.1 b.1 (by rw [hupd]; exact List.mem_cons_self _ _)
          · exact hih.2 b h hkb
      · have hupd : (a.2.foldl (fun i ent => updateIndexEntity i a.1 ent) idx) K
            = idx K := by
          rw [updateApp_point, if_neg (by intro hc; exact hm hc.1)]
        have hnotin' : ∀ b ∈ rest,
            b.1 ∉ (a.2.foldl (fun i ent => updateIndexEntity i a.1 ent) idx) K := by
          intro b hb
          rw [hupd]
          exact hnotin b (List.mem_cons_of_mem a hb)
        have hlen' : (((a.2.foldl (fun i ent => updateIndexEntity i a.1 ent) idx) K).length
            + rest.countP (fun a => decide (K ∈ appKeys a.2))) ≤ 30 := by
          rw [hupd]
          have : (a :: rest).countP (fun a => decide (K ∈ appKeys a.2))
              = rest.countP (fun a => decide (K ∈ appKeys a.2)) := by
            rw [List.countP_cons]
            simp [hm]
          omega
        have hih := ih _ hnodup' hnotin' hlen'
        constructor
        · intro x hx
          exact hih.1 x (by rw [hupd]; exact hx)
        · intro b hb hkb
          rcases List.mem_cons.mp hb with h | h
          · subst h; exact absurd hkb hm
          · exact hih.2 b h hkb

/-- C3 (amended). Index completeness with the source's caps made explicit:
for an entity `e` of an appended event, the cached-manifest path of
`get_events_by_entities` includes the event provided the normalized key of
`e` is nonempty, is one of the keys the query looks up, and at most 30
appends carry that key (the per-key index list is capped at 30, evicting
older ids). The full-directory-scan fallback ignores the query entirely —
it returns the `recent_limit` newest ids whatever the query is — so the two
paths need not agree. -/
theorem C3_index_completeness_capped :
    ∀ (apps : List (String × List String)) (e eid : String) (ents : List String),
    (eid, ents) ∈ apps →
    e ∈ ents →
    _normalize_entity_key e ≠ "" →
    _normalize_entity_key e ∈ cachedQueryKeys e →
    (apps.map Prod.fst).Nodup →
    apps.countP (fun a => decide (_normalize_entity_key e ∈ appKeys a.2)) ≤ 30 →
    eid ∈ buildEntityIndex apps (_normalize_entity_key e)
  ∧ eid ∈ cachedMatchedIds (buildEntityIndex apps) [e]
  ∧ (∀ (s : MemStore) (limit : ℕ) (query query' : List String),
      get_events_by_entities s false query limit
        = get_events_by_entities s false query' limit) := by
  intro apps e eid ents hmem hent hne hqk hnodup hcount
  have hkeys : _normalize_entity_key e ∈ appKeys ents := by
    unfold appKeys
    rw [List.mem_flatMap]
    refine ⟨e, hent, ?_⟩
    unfold indexKeys
    rw [if_neg hne]
    exact List.mem_cons_self _ _
  have hidx : eid ∈ buildEntityIndex apps (_normalize_entity_key e) := by
    unfold buildEntityIndex
    exact (buildIndex_complete (_normalize_entity_key e) apps (fun _ => []) hnodup
      (by intro a _ h; simpa using h) (by simpa using hcount)).2
      (eid, ents) hmem hkeys
  refine ⟨hidx, ?_, fun s limit query query' => rfl⟩
  unfold cachedMatchedIds
  rw [List.mem_flatMap]
  refine ⟨e, by simp, ?_⟩
  rw [List.mem_flatMap]
  exact ⟨_normalize_entity_key e, hqk, hidx⟩

/-- C3 witness: a single append of an event carrying entity `"x"`. -/
theorem C3_index_completeness_capped_witness :
    (("e1", ["x"]) ∈ [("e1", ["x"])])
  ∧ "x" ∈ ["x"]
  ∧ _normalize_entity_key "x" ≠ ""
  ∧ _normalize_entity_key "x" ∈ cachedQueryKeys "x"
  ∧ ([("e1", ["x"])].map Prod.fst).Nodup
  ∧ [("e1", ["x"])].countP
      (fun a => decide (_normalize_entity_key "x" ∈ appKeys a.2)) ≤ 30
  ∧ "e1" ∈ buildEntityIndex [("e1", ["x"])] (_normalize_entity_key "x")
  ∧ "e1" ∈ cachedMatchedIds (buildEntityIndex [("e1", ["x"])]) ["x"] := by
  have h := C3_index_completeness_capped [("e1", ["x"])] "x" "e1" ["x"]
    (by simp) (by simp) (by with_unfolding_all decide)
    (by with_unfolding_all decide) (by simp)
    (by with_unfolding_all decide)
  exact ⟨by simp, by simp, by with_unfolding_all decide, by with_unfolding_all decide,
    by simp, by with_unfolding_all decide, h.1, h.2.1⟩

/-- The chronological appends of the C3 counterexample: eleven events, all
carrying entity `"x"`, with distinct contents and ascending mtimes. -/
def c3appends : List (ℚ × String × String) :=
  [(0, "e0", "c0"), (1, "e1", "c1"), (2, "e2", "c2"), (3, "e3", "c3"),
   (4, "e4", "c4"), (5, "e5", "c5"), (6, "e6", "c6"), (7, "e7", "c7"),
   (8, "e8", "c8"), (9, "e9", "c9"), (10, "e10", "c10")]

def c3store : MemStore :=
  c3appends.foldl
    (fun st a => (append_event st a.1 a.2.1 a.2.2 ["x"] "compound" "m" "session" [] "").1)
    ⟨[], {}⟩

set_option maxRecDepth 8000 in
/-- C3 counterexample: the oldest of eleven events carrying entity `"x"` is
returned by the cached-manifest path of `get_events_by_entities` but NOT by
the full-directory-scan fallback (which ignores the query and returns only
the `recent_limit = 10` newest events) — the two paths disagree, refuting
the claim as stated. -/
theorem C3_cex_paths_disagree :
    (c3store.files.all (fun f => f.event.entities.contains "x")) = true
  ∧ (lookupFile c3store "e0").isSome = true
  ∧ "e0" ∈ get_events_by_entities c3store true ["x"] 10
  ∧ "e0" ∉ get_events_by_entities c3store false ["x"] 10 := by
  refine ⟨?_, ?_, ?_, ?_⟩ <;> with_unfolding_all decide

/-! ### C8: consolidation scenario -/

/-- The C8 store: four related events (pairwise entity Jaccard ≥ 0.25 via
the shared `auth.py`/`jwt`/`login` entities) and two unrelated singletons,
appended chronologically. -/
def c8appends : List (ℚ × String × String × List String) :=
  [(0, "a1", "alpha one", ["auth.py", "jwt"]),
   (10, "a2", "alpha two", ["auth.py", "jwt", "login"]),
   (20, "a3", "alpha three", ["jwt", "login"]),
   (30, "a4", "alpha four", ["auth.py", "login"]),
   (40, "b1", "beta one", ["zeta"]),
   (50, "b2", "beta two", ["omega"])]

def c8store : MemStore :=
  c8appends.foldl (fun st a =>
    (append_event st a.1 a.2.1 a.2.2.1 a.2.2.2 "compound" "manual" "session" [] "").1)
    ⟨[], {}⟩

def c8run : MemStore × ConsolidateStats := consolidate c8store 7200 ["sch1"] false

def c8dry : MemStore × ConsolidateStats := consolidate c8store 7200 ["sch1"] true

set_option maxRecDepth 8000 in
/-- C8. Consolidation scenario: over a store with four events of pairwise
entity-Jaccard ≥ 0.25 and two unrelated singletons, a non-dry-run
`consolidate` finds exactly one cluster, creates exactly one schema-type
event whose `meta.source_ids` are the four, sets `meta.archived_by` on each
of the four (deleting nothing — all seven files present), and leaves the
two singletons entirely unchanged; a dry run changes no file at all. -/
theorem C8_consolidation_scenario :
    ((c8store.files.take 4).all (fun f => (c8store.files.take 4).all (fun g =>
        decide (JACCARD_THRESHOLD ≤ _jaccard (_entity_set f.event) (_entity_set g.event)))))
      = true
  ∧ ((c8store.files.drop 4).all (fun f => c8store.files.all (fun g =>
        f.eid = g.eid
          || decide (_jaccard (_entity_set f.event) (_entity_set g.event)
              < JACCARD_THRESHOLD)))) = true
  ∧ c8run.2 = { cluster_count := 1, schema_count := 1, archived_count := 4 }
  ∧ c8run.1.files.length = 7
  ∧ (lookupFile c8run.1 "sch1").map (fun f => (f.event.type, f.event.sourceIds))
      = some ("schema", ["a1", "a2", "a3", "a4"])
  ∧ (["a1", "a2", "a3", "a4"].all (fun i =>
      ((lookupFile c8run.1 i).map (fun f => f.event.archivedBy))
        = some (some "sch1"))) = true
  ∧ (["a1", "a2", "a3", "a4", "b1", "b2"].all (fun i =>
      (lookupFile c8run.1 i).isSome)) = true
  ∧ lookupFile c8run.1 "b1" = lookupFile c8store "b1"
  ∧ lookupFile c8run.1 "b2" = lookupFile c8store "b2"
  ∧ c8dry.1.files = c8store.files
  ∧ c8dry.2 = { cluster_count := 1, schema_count := 1, archived_count := 4 } := by
  refine ⟨?_, ?_, ?_, ?_, ?_, ?_, ?_, ?_, ?_, ?_, ?_⟩ <;> with_unfolding_all decide

end Toolkit
